import Mathlib

/-
Verification development for the vfs-tracker acoustic analysis pipeline
(lambda-functions/online-praat-analysis).  The Python sources analysis.py and
analysis_refactor_v2.py are shallowly embedded: numeric values are modelled by
exact rationals, Python float NaN (and absent dict keys) by Option, and Python
exceptions by Except.  Each embedded definition is a direct translation of the
corresponding Python function, named after it where Lean allows.
-/

namespace VfsTracker

/-! ## Confidence scorer (analysis.py, `_calculate_confidence` and helpers) -/

/-- Bandwidth plausibility score, line 119 of analysis.py:
`1.0 if 80 <= bw_hz <= 600 else max(0.0, 1.0 - (abs(bw_hz - 340) / 500))`. -/
def bandwidthScore (bw_hz : ℚ) : ℚ :=
  if 80 ≤ bw_hz ∧ bw_hz ≤ 600 then 1 else max 0 (1 - |bw_hz - 340| / 500)

/-- Prominence score ramp, line 127 of analysis.py:
`1.0 if prom_db >= 6 else (0.0 if prom_db < 3 else (prom_db - 3) / 3)`. -/
def prominenceScore (prom_db : ℚ) : ℚ :=
  if 6 ≤ prom_db then 1 else if prom_db < 3 then 0 else (prom_db - 3) / 3

/-- Python's built-in `round`: round half to even (banker's rounding). -/
def pyRound (q : ℚ) : ℤ :=
  let f := ⌊q⌋
  let r := q - f
  if r < 1/2 then f
  else if 1/2 < r then f + 1
  else if f % 2 = 0 then f else f + 1

/-- Harmonic proximity penalty, lines 130-135 of analysis.py: when `f0 > 0`,
the candidate frequency is within 3% relative distance of
`round(freq_hz / f0) * f0` and the prominence is below 6 dB, the penalty is
0.2, otherwise 0. -/
def harmonicPenalty (freq_hz f0 prom_db : ℚ) : ℚ :=
  if 0 < f0 then
    let harm := pyRound (freq_hz / f0)
    let harm_dist_rel := |freq_hz - (harm : ℚ) * f0| / freq_hz
    if harm_dist_rel < 3/100 ∧ prom_db < 6 then 1/5 else 0
  else 0

/-- Index of the first minimum of `|b - x|` over `bins`, modelling
`np.argmin(np.abs(freq_bins - freq_hz))` (0 on an empty axis). -/
def argminAbsDist (bins : List ℚ) (x : ℚ) : ℕ :=
  match bins with
  | [] => 0
  | b :: rest =>
    (rest.foldl
      (fun (acc : ℕ × ℕ × ℚ) b' =>
        let cur := acc.2.1 + 1
        if |b' - x| < acc.2.2 then (cur, cur, |b' - x|) else (acc.1, cur, acc.2.2))
      (0, 0, |b - x|)).1

/-- Peak prominence in dB, translating `peak_prominence_db` (analysis.py lines
74-100): 0 when the index is within two bins of either boundary, otherwise
the peak height above the deeper of the two flanking valleys; the window
half-width in bins is `max(1, int(win_hz / bin_hz))` with
`bin_hz = max(1e-9, freq_bins[1] - freq_bins[0])` (20 bins when no axis with
at least two bins is given).  An empty flanking slice (the NumPy ValueError
branch) yields 0. -/
def peak_prominence_db (env_db : List ℚ) (idx : ℕ) (freq_bins : Option (List ℚ))
    (win_hz : ℚ) : ℚ :=
  if idx ≤ 1 ∨ env_db.length - 2 ≤ idx then 0
  else
    let k : ℕ :=
      match freq_bins with
      | none => 20
      | some bins =>
        if bins.length < 2 then 20
        else max 1 (Int.toNat ⌊win_hz / max (1/1000000000) (bins.getD 1 0 - bins.getD 0 0)⌋)
    let l0 := idx - k
    let r0 := min env_db.length (idx + k + 1)
    let peak := env_db.getD idx 0
    let leftSlice := (env_db.drop l0).take (idx - l0)
    let rightSlice := (env_db.drop (idx + 1)).take (r0 - (idx + 1))
    match leftSlice.min?, rightSlice.min? with
    | some lv, some rv => peak - max lv rv
    | _, _ => 0

/-- Prominence score and raw prominence of a candidate, lines 122-127 of
analysis.py: the neutral default `(0.5, 0.0)` when no envelope is supplied,
otherwise the prominence at the bin nearest the candidate frequency (the
true envelope and its frequency axis are supplied together, so the two
optional arguments of the Python function are modelled as one optional
pair). -/
def promPair (freq_hz : ℚ) (env : Option (List ℚ × List ℚ)) : ℚ × ℚ :=
  match env with
  | none => (1/2, 0)
  | some (true_envelope, freq_bins) =>
    let idx := argminAbsDist freq_bins freq_hz
    let pdb := peak_prominence_db true_envelope idx (some freq_bins) 150
    (prominenceScore pdb, pdb)

/-- Translation of `_calculate_confidence` (analysis.py lines 102-139):
returns `(max(0.0, 0.6 * prom_score + 0.4 * bw_score - harm_penalty),
prom_db)`. -/
def _calculate_confidence (freq_hz bw_hz f0 : ℚ)
    (env : Option (List ℚ × List ℚ)) : ℚ × ℚ :=
  let bw_score := bandwidthScore bw_hz
  let pp := promPair freq_hz env
  let harm_penalty := harmonicPenalty freq_hz f0 pp.2
  let score := 3/5 * pp.1 + 2/5 * bw_score - harm_penalty
  (max 0 score, pp.2)

/-- Clamp of a value to a closed interval. -/
def clamp (x lo hi : ℚ) : ℚ := max lo (min x hi)

/-- Distance from a bandwidth value to the plausible band [80, 600]
(0 inside the band).  Used to state the spec's "moves away from [80,600]". -/
def distToBand (b : ℚ) : ℚ :=
  if b < 80 then 80 - b else if 600 < b then b - 600 else 0

/-! ## Frame dictionaries of `analyze_note_file_robust` (analysis.py)

A frame `fr` is a Python dict whose keys `f1`, `b1`, `conf1`, `prom1_db`,
`f2`, `b2`, `conf2`, `prom2_db`, `f3`, `b3` may be absent; absence is
modelled by `Option`.  `time`, `f0` and `hnr` are always present. -/

structure AFrame where
  time : ℚ
  f0 : ℚ
  hnr : ℚ
  f1 : Option ℚ := none
  b1 : Option ℚ := none
  conf1 : Option ℚ := none
  prom1_db : Option ℚ := none
  f2 : Option ℚ := none
  b2 : Option ℚ := none
  conf2 : Option ℚ := none
  prom2_db : Option ℚ := none
  f3 : Option ℚ := none
  b3 : Option ℚ := none
deriving DecidableEq

/-- Default frame used for out-of-range list indexing. -/
def dfltFrame : AFrame := { time := 0, f0 := 0, hnr := 0 }

/-! ## Ordering / spacing validator (analysis.py lines 233-248) -/

/-- First penalty block (lines 234-238): when both F1 and F2 are present but
fail `f1 < f2 and f2 - f1 >= 150`, both confidences are multiplied by 0.2
(`fr.get('conf1', 0.0) * 0.2`, likewise for conf2). -/
def orderPenaltyF1F2 (fr : AFrame) : AFrame :=
  match fr.f1, fr.f2 with
  | some v1, some v2 =>
    if ¬ (v1 < v2 ∧ 150 ≤ v2 - v1) then
      { fr with conf1 := some ((fr.conf1.getD 0) * (1/5)),
                conf2 := some ((fr.conf2.getD 0) * (1/5)) }
    else fr
  | _, _ => fr

/-- Second penalty block (lines 241-244): a hard bandwidth ceiling; when
`b1 > 700` or `b2 > 700` both confidences are multiplied by 0.2. -/
def bandwidthCeilingPenalty (fr : AFrame) : AFrame :=
  if (match fr.b1 with | some b => decide (700 < b) | none => false) ||
     (match fr.b2 with | some b => decide (700 < b) | none => false) then
    { fr with conf1 := some ((fr.conf1.getD 0) * (1/5)),
              conf2 := some ((fr.conf2.getD 0) * (1/5)) }
  else fr

/-- Third penalty block (lines 246-248): when both F2 and F3 are present but
fail `f2 < f3 and f3 - f2 >= 200`, conf2 is multiplied by 0.2. -/
def orderPenaltyF2F3 (fr : AFrame) : AFrame :=
  match fr.f2, fr.f3 with
  | some v2, some v3 =>
    if ¬ (v2 < v3 ∧ 200 ≤ v3 - v2) then
      { fr with conf2 := some ((fr.conf2.getD 0) * (1/5)) }
    else fr
  | _, _ => fr

/-- The three penalty blocks applied in source order to one frame. -/
def applyPairConstraints (fr : AFrame) : AFrame :=
  orderPenaltyF2F3 (bandwidthCeilingPenalty (orderPenaltyF1F2 fr))

/-! ## Window selector (analysis.py lines 255-273) -/

/-- Window width in seconds (250 ms), line 257. -/
def W : ℚ := 1/4

/-- Minimum frame count for an eligible window, line 258. -/
def MIN_FRAMES : ℕ := 8

/-- Score contribution of one frame to a window,
`f.get('conf1', 0.0) + f.get('conf2', 0.0)` (line 267). -/
def frameScore (f : AFrame) : ℚ := f.conf1.getD 0 + f.conf2.getD 0

/-- Time of the frame at index `i` (0 when out of range). -/
def timeAt (frames : List AFrame) (i : ℕ) : ℚ := (frames.getD i dfltFrame).time

/-- Python's `math.isclose` with default tolerances
(`rel_tol = 1e-9`, `abs_tol = 0`). -/
def isclose (a b : ℚ) : Prop := |a - b| ≤ 1/1000000000 * max |a| |b|

instance (a b : ℚ) : Decidable (isclose a b) := by unfold isclose; infer_instance

/-- Inner `while` of the two-pointer scan (line 264): advance `j` while
`j < n` and `frames[j]['time'] - t0 <= W`. -/
def advanceJ (frames : List AFrame) (t0 : ℚ) (j : ℕ) : ℕ :=
  if h : j < frames.length ∧ timeAt frames j - t0 ≤ W then
    advanceJ frames t0 (j + 1)
  else j
termination_by frames.length - j
decreasing_by simp_wf; omega

/-- State of the best-window scan: `best_sum, best_i, best_j` and the
persistent right pointer `j`. -/
structure SelState where
  bestSum : ℚ
  bestI : ℕ
  bestJ : ℕ
  j : ℕ

/-- The `for i in range(n)` loop of the window selector (lines 262-271).
The window at `i` is `frames[i:j]`; the best window is updated when
`(score_window > best_sum and window_size >= MIN_FRAMES)` or
`(isclose(score_window, best_sum) and window_size > best window size)`;
sizes are compared as Python ints, hence the casts to `ℤ`. -/
def selLoop (frames : List AFrame) (i : ℕ) (st : SelState) : SelState :=
  if _h : i < frames.length then
    let t0 := timeAt frames i
    let j' := advanceJ frames t0 st.j
    let s := (((frames.drop i).take (j' - i)).map frameScore).sum
    let st' :=
      if (st.bestSum < s ∧ (MIN_FRAMES : ℤ) ≤ (j' : ℤ) - (i : ℤ)) ∨
         (isclose s st.bestSum ∧ (st.bestJ : ℤ) - (st.bestI : ℤ) < (j' : ℤ) - (i : ℤ)) then
        SelState.mk s i j' j'
      else
        SelState.mk st.bestSum st.bestI st.bestJ j'
    selLoop frames (i + 1) st'
  else st
termination_by frames.length - i
decreasing_by simp_wf; omega

/-- The whole best-window selection (lines 259-273):
`best_window = frames[best_i:best_j] if best_j > best_i else frames`. -/
def selectBestWindow (frames : List AFrame) : List AFrame :=
  let st := selLoop frames 0 (SelState.mk (-1) 0 0 0)
  if st.bestI < st.bestJ then (frames.drop st.bestI).take (st.bestJ - st.bestI)
  else frames

/-- Number of leading frames whose time is at most `t0 + W`; with frames
sorted by time this is the index reached by the inner `while`. -/
def cutAt (frames : List AFrame) (t0 : ℚ) : ℕ :=
  match frames with
  | [] => 0
  | f :: rest => if f.time - t0 ≤ W then cutAt rest t0 + 1 else 0

/-- Frame count of the maximal candidate window anchored at index `i`: the
frames from `i` on whose time is within `W` of the time at `i`. -/
def windowCount (frames : List AFrame) (i : ℕ) : ℕ :=
  cutAt (frames.drop i) (timeAt frames i)

/-! ## Frame QC gate (analysis_refactor_v2.py, `_extract_frames` lines 253-331)

Per analysed frame the extraction yields a time, an intensity, and (possibly
NaN, hence `Option`) f0, voicing probability, three formant frequencies and
three bandwidths; the QC rules then flag and null values and thread the
`prev_f1` / `prev_f2` accepted-value state. -/

structure RawFrame where
  time : ℚ
  inten : Option ℚ := none
  f0 : Option ℚ := none
  vprob : Option ℚ := none
  f1 : Option ℚ := none
  f2 : Option ℚ := none
  f3 : Option ℚ := none
  b1 : Option ℚ := none
  b2 : Option ℚ := none
  b3 : Option ℚ := none
deriving DecidableEq

/-- The carried state of the QC gate: the last accepted F1 and F2
(`prev_f1`, `prev_f2`, lines 250-251; NaN initially). -/
structure QcState where
  prevF1 : Option ℚ := none
  prevF2 : Option ℚ := none
deriving DecidableEq

/-- One output row (the dict built at lines 310-330).  `qc_flags` keeps the
flag list; the CSV writer joins it with `|`. -/
structure QcRow where
  time_s : ℚ
  f0_hz : Option ℚ
  voicing_prob : Option ℚ
  f1_hz : Option ℚ
  f2_hz : Option ℚ
  f3_hz : Option ℚ
  b1_hz : Option ℚ
  b2_hz : Option ℚ
  b3_hz : Option ℚ
  spl_db : Option ℚ
  calibration_offset_db : ℚ
  qc_flags : List String
deriving DecidableEq

/-- QC range rule for one value (e.g. lines 279-281): a finite value outside
`[lo, hi]` is flagged and nulled. -/
def rangeCheck (lo hi : ℚ) (flag : String) (v : Option ℚ) : Option ℚ × List String :=
  match v with
  | some x => if ¬ (lo ≤ x ∧ x ≤ hi) then (none, [flag]) else (some x, [])
  | none => (none, [])

/-- QC jump rule for one value (lines 300-305): when both the previous
accepted value and the current value are finite and differ by more than
`thr`, the current value is flagged and nulled. -/
def jumpCheck (thr : ℚ) (flag : String) (prev v : Option ℚ) : Option ℚ × List String :=
  match prev, v with
  | some pv, some x => if thr < |x - pv| then (none, [flag]) else (some x, [])
  | _, _ => (v, [])

/-- Voicing-probability rule (lines 277-278): flag only, nothing nulled. -/
def lowVoicingFlag (qc_voicing_prob_min : ℚ) (vprob : Option ℚ) : List String :=
  match vprob with
  | some v => if v < qc_voicing_prob_min then ["low_voicing_prob"] else []
  | none => []

/-- High-f0 rule (lines 297-298): flag only, nothing nulled. -/
def highF0Flag (qc_f0_high_risk_hz : ℚ) (f0 : Option ℚ) : List String :=
  match f0 with
  | some v => if qc_f0_high_risk_hz < v then ["high_f0_risk"] else []
  | none => []

/-- One iteration of the frame loop of `_extract_frames` (lines 253-330):
all QC rules in source order, the row construction, and the update of the
accepted-value state (`prev_f1 = f1 if np.isfinite(f1) else prev_f1`). -/
def qcStep (qc_voicing_prob_min qc_f0_high_risk_hz offset : ℚ)
    (st : QcState) (fr : RawFrame) : QcRow × QcState :=
  let r1 := rangeCheck 150 1200 "formant_out_of_range_f1" fr.f1
  let r2 := rangeCheck 500 3500 "formant_out_of_range_f2" fr.f2
  let r3 := rangeCheck 1500 4500 "formant_out_of_range_f3" fr.f3
  let rb1 := rangeCheck 20 1200 "bandwidth_out_of_range_b1" fr.b1
  let rb2 := rangeCheck 20 1600 "bandwidth_out_of_range_b2" fr.b2
  let rb3 := rangeCheck 20 2000 "bandwidth_out_of_range_b3" fr.b3
  let j1 := jumpCheck 300 "jump_f1" st.prevF1 r1.1
  let j2 := jumpCheck 500 "jump_f2" st.prevF2 r2.1
  let flags :=
    lowVoicingFlag qc_voicing_prob_min fr.vprob ++
    r1.2 ++ r2.2 ++ r3.2 ++ rb1.2 ++ rb2.2 ++ rb3.2 ++
    highF0Flag qc_f0_high_risk_hz fr.f0 ++ j1.2 ++ j2.2
  let row : QcRow :=
    { time_s := fr.time
      f0_hz := fr.f0
      voicing_prob := fr.vprob
      f1_hz := j1.1
      f2_hz := j2.1
      f3_hz := r3.1
      b1_hz := rb1.1
      b2_hz := rb2.1
      b3_hz := rb3.1
      spl_db := fr.inten.map (fun x => x + offset)
      calibration_offset_db := offset
      qc_flags := flags }
  let st' : QcState :=
    { prevF1 := match j1.1 with | some v => some v | none => st.prevF1
      prevF2 := match j2.1 with | some v => some v | none => st.prevF2 }
  (row, st')

/-- The frame loop of `_extract_frames` over a whole recording, threading the
QC state (initially NaN / NaN). -/
def qcRun (qc_voicing_prob_min qc_f0_high_risk_hz offset : ℚ) :
    QcState → List RawFrame → List QcRow
  | _, [] => []
  | st, fr :: rest =>
    let p := qcStep qc_voicing_prob_min qc_f0_high_risk_hz offset st fr
    p.1 :: qcRun qc_voicing_prob_min qc_f0_high_risk_hz offset p.2 rest

/-! ## SPL calibration (analysis_refactor_v2.py, `_compute_calibration_offset`
lines 126-148) -/

/-- The `Calibration` dataclass (lines 72-78). -/
structure Calibration where
  mode : String := "relative"
  noise_spl_db : Option ℚ := none
  calibration_offset_db : ℚ := 0
  spl_kind : String := "relative"
deriving DecidableEq

/-- Translation of `_compute_calibration_offset`: builds a new `Calibration`
with the computed offset; the Python ValueError is an `Except.error`. -/
def _compute_calibration_offset (noise_intensity_db : ℚ) (calib : Calibration) :
    Except String Calibration :=
  if calib.mode = "absolute" then
    match calib.noise_spl_db with
    | none => Except.error "absolute calibration requires noise_spl_db"
    | some v =>
      Except.ok
        { mode := calib.mode
          noise_spl_db := calib.noise_spl_db
          calibration_offset_db := v - noise_intensity_db
          spl_kind := "absolute" }
  else
    Except.ok
      { mode := calib.mode
        noise_spl_db := calib.noise_spl_db
        calibration_offset_db := -noise_intensity_db
        spl_kind := "relative" }

/-! ## VRP binner (analysis_refactor_v2.py, `_compute_vrp` lines 346-404) -/

/-- Ascending sort of rationals (NumPy sorts ascending for median and
percentile computations). -/
def sortQ (l : List ℚ) : List ℚ := l.insertionSort (· ≤ ·)

/-- Median of a list of (finite) values; `none` on the empty list.  NumPy
takes the mean of the two middle elements for even lengths. -/
def medianQ (l : List ℚ) : Option ℚ :=
  let s := sortQ l
  let m := s.length
  if m = 0 then none
  else if m % 2 = 1 then some (s.getD (m / 2) 0)
  else some ((s.getD (m / 2 - 1) 0 + s.getD (m / 2) 0) / 2)

/-- Linear-interpolation percentile (NumPy default): position
`q/100 * (m-1)` into the ascending sort. -/
def percentileQ (l : List ℚ) (q : ℚ) : Option ℚ :=
  let s := sortQ l
  let m := s.length
  if m = 0 then none
  else
    let pos := q / 100 * ((m : ℚ) - 1)
    let lo := Int.toNat ⌊pos⌋
    let frac := pos - (⌊pos⌋ : ℚ)
    if lo + 1 < m then some (s.getD lo 0 + frac * (s.getD (lo + 1) 0 - s.getD lo 0))
    else some (s.getD (m - 1) 0)

/-- Translation of `_mad_filtered` (lines 335-343): with at least 5 values
and a nonzero median absolute deviation, keep the values within 3 MAD of
the median. -/
def _mad_filtered (values : List ℚ) : List ℚ :=
  if values.length < 5 then values
  else
    let med := (medianQ values).getD 0
    let mad := (medianQ (values.map (fun v => |v - med|))).getD 0
    if mad = 0 then values
    else values.filter (fun v => |v - med| ≤ 3 * mad)

/-- One row of the glide frame set as consumed by `_compute_vrp`: the
`f0_hz`, `spl_db` and `voicing_prob` entries of the row dict (NaN as
`none`). -/
structure VRow where
  f0_hz : Option ℚ := none
  spl_db : Option ℚ := none
  voicing_prob : Option ℚ := none
deriving DecidableEq

/-- One semitone bucket of the VRP envelope (lines 385-394).  The
`f0_center_hz` entry is the fixed function `440 * 2 ^ ((semi - 69) / 12)` of
`semi` and is not tracked in the rational model. -/
structure VrpBin where
  semi : ℤ
  spl_min : ℚ
  spl_max : ℚ
  spl_mean : ℚ
  count : ℕ
deriving DecidableEq

/-- Result of `_compute_vrp`: either an error string or the summary with the
bin list. -/
inductive VrpResult where
  | err (e : String)
  | ok (f0_min f0_max spl_min spl_max : ℚ) (bins : List VrpBin)
deriving DecidableEq

/-- Bin list of a `VrpResult` (empty for errors). -/
def VrpResult.binsOf : VrpResult → List VrpBin
  | .err _ => []
  | .ok _ _ _ _ bins => bins

/-- Filter of lines 358-363: when any finite voicing probability exists a
row is valid when f0, spl and vprob are finite and `vprob >= 0.60`;
otherwise only f0 and spl need to be finite. -/
def vrpValidPairs (rows : List VRow) : List (ℚ × ℚ) :=
  if rows.any (fun r => r.voicing_prob.isSome) then
    rows.filterMap (fun r =>
      match r.f0_hz, r.spl_db, r.voicing_prob with
      | some f0, some spl, some vp => if 3/5 ≤ vp then some (f0, spl) else none
      | _, _, _ => none)
  else
    rows.filterMap (fun r =>
      match r.f0_hz, r.spl_db with
      | some f0, some spl => some (f0, spl)
      | _, _ => none)

/-- The bin materialisation loop of `_compute_vrp` (lines 372-394),
parametrised by the semitone index map `binIdx` abstracting
`int(np.round(69 + 12*np.log2(f0/440)))`, a transcendental map that is a
pure function of `f0` (its value never feeds back into any guard other than
bucket grouping).  A bucket at index `n` survives only if its sample mask
has at least 5 rows, at least 5 finite SPL values, and at least 5 values
after MAD filtering; only then is a bin appended, with `count` the final
sample count. -/
def vrpBins (binIdx : ℚ → ℤ) (pairs : List (ℚ × ℚ)) : List VrpBin :=
  let semis := pairs.map (fun pr => binIdx pr.1)
  let lo := semis.foldl min 0
  let hi := semis.foldl max 0
  ((List.range (Int.toNat (hi - lo + 1))).map (fun k => lo + (k : ℤ))).filterMap
    (fun n =>
      let masked := pairs.filter (fun pr => binIdx pr.1 = n)
      if masked.length < 5 then none
      else
        let spl_sel0 := masked.map (fun pr => pr.2)
        if spl_sel0.length < 5 then none
        else
          let spl_sel := _mad_filtered spl_sel0
          if spl_sel.length < 5 then none
          else
            some
              { semi := n
                spl_min := (percentileQ spl_sel 5).getD 0
                spl_max := (percentileQ spl_sel 95).getD 0
                spl_mean := spl_sel.sum / (spl_sel.length : ℚ)
                count := spl_sel.length })

/-- Translation of `_compute_vrp` (lines 346-404), parametrised by the
semitone index map (see `vrpBins`).  The `foldl min 0 / max 0` seeds in
`vrpBins` start from the first element in the source; since the valid list
is nonempty past the guard the iteration range in the source is the span of
the observed indices, and `vrpBins` only widens the scanned range (bins
outside the observed span have empty masks and are dropped), leaving the
output bin list unchanged. -/
def _compute_vrp (binIdx : ℚ → ℤ) (glide_rows : List VRow) : VrpResult :=
  if glide_rows.isEmpty then .err "no_glide_rows"
  else
    let pairs := vrpValidPairs glide_rows
    if pairs.isEmpty then .err "no_valid_voiced_glide_frames"
    else
      let f0s := pairs.map (fun pr => pr.1)
      let spls := pairs.map (fun pr => pr.2)
      .ok ((percentileQ f0s 10).getD 0) ((percentileQ f0s 90).getD 0)
        ((percentileQ spls 10).getD 0) ((percentileQ spls 90).getD 0)
        (vrpBins binIdx pairs)

/-! ## Anchor extractor (analysis_refactor_v2.py, `_extract_anchor`
lines 407-484) -/

/-- One frame-level row as consumed by `_extract_anchor`: the dict entries
it reads (`.get` with NaN default; NaN as `none`). -/
structure ARow where
  task : String := ""
  file : String := ""
  time_s : Option ℚ := none
  voicing_prob : Option ℚ := none
  f0_hz : Option ℚ := none
  f1_hz : Option ℚ := none
  f2_hz : Option ℚ := none
  f3_hz : Option ℚ := none
  b1_hz : Option ℚ := none
  b2_hz : Option ℚ := none
  b3_hz : Option ℚ := none
  spl_db : Option ℚ := none
deriving DecidableEq

/-- A successful anchor (the dict of lines 471-484). -/
structure Anchor where
  task : String
  file : String
  f0_hz : Option ℚ
  f1_hz : Option ℚ
  f2_hz : Option ℚ
  f3_hz : Option ℚ
  b1_hz : Option ℚ
  b2_hz : Option ℚ
  b3_hz : Option ℚ
  spl_db : Option ℚ
  spl_mad_db : Option ℚ
  n_frames : ℕ
deriving DecidableEq

/-- Result of `_extract_anchor`: an error dict carries only the task and the
reason, no metric values. -/
inductive AnchorResult where
  | err (task reason : String)
  | ok (a : Anchor)
deriving DecidableEq

/-- Minimum of the finite entries (`np.nanmin`); `none` when no entry is
finite. -/
def nanMin (l : List (Option ℚ)) : Option ℚ :=
  l.foldl
    (fun acc v =>
      match acc, v with
      | none, w => w
      | some m, none => some m
      | some m, some x => some (min m x)) none

/-- Maximum of the finite entries (`np.nanmax`); `none` when no entry is
finite. -/
def nanMax (l : List (Option ℚ)) : Option ℚ :=
  l.foldl
    (fun acc v =>
      match acc, v with
      | none, w => w
      | some m, none => some m
      | some m, some x => some (max m x)) none

/-- The stable-window filter of `_extract_anchor` (lines 449-457): keep rows
whose time is finite and inside `[left, right]` and whose voicing
probability is not a finite value below 0.60. -/
def stableFilter (left right : ℚ) (rows : List ARow) : List ARow :=
  rows.filter (fun r =>
    (match r.time_s with
     | some t => decide (left ≤ t) && decide (t ≤ right)
     | none => false) &&
    (match r.voicing_prob with
     | some vp => decide (3/5 ≤ vp)
     | none => true))

/-- Median of the finite values of one metric over the stable rows
(lines 462-465): `none` when no finite value remains. -/
def medOf (rows : List ARow) (proj : ARow → Option ℚ) : Option ℚ :=
  medianQ (rows.filterMap proj)

/-- The `max_voiced` file-selection policy (lines 421-434): per file the
number of voiced rows (finite f0 and no finite voicing probability below
0.60) and the total row count, accumulated over an insertion-ordered
association list; the chosen file is the greatest `(voiced, total, name)`
triple (names are unique keys, so Python's reverse sort picks exactly
this maximum). -/
def maxVoicedFile (sel : List ARow) (dflt : String) : String :=
  let score_by_file :=
    sel.foldl
      (fun (acc : List (String × ℕ × ℕ)) r =>
        if r.file = "" then acc
        else
          let voiced :=
            match r.f0_hz, r.voicing_prob with
            | some _, some vp => if 3/5 ≤ vp then 1 else 0
            | some _, none => 1
            | none, _ => 0
          match acc.lookup r.file with
          | some pr =>
            acc.map (fun q => if q.1 = r.file then (q.1, pr.1 + voiced, pr.2 + 1) else q)
          | none => acc ++ [(r.file, voiced, 1)])
      []
  match score_by_file with
  | [] => dflt
  | it :: rest =>
    (rest.foldl
      (fun (best : String × ℕ × ℕ) q =>
        if best.2.1 < q.2.1 ∨
           (best.2.1 = q.2.1 ∧ (best.2.2 < q.2.2 ∨ (best.2.2 = q.2.2 ∧ best.1 < q.1))) then q
        else best) it).1

/-- Translation of `_extract_anchor` (lines 407-484) for a given
file-selection policy (`"first"` or `"max_voiced"`). -/
def _extract_anchor (rows : List ARow) (task_name file_selection : String) :
    AnchorResult :=
  let sel := rows.filter (fun r => r.task = task_name)
  match sel with
  | [] => .err task_name "no_rows"
  | s0 :: _ =>
    let file_name :=
      if file_selection = "max_voiced" then maxVoicedFile sel s0.file else s0.file
    let file_rows := sel.filter (fun r => r.file = file_name)
    if file_rows.isEmpty then .err task_name "no_file_rows"
    else
      let ts := file_rows.map (fun r => r.time_s)
      match nanMin ts, nanMax ts with
      | some tmin, some tmax =>
        if tmax ≤ tmin then .err task_name "invalid_time_range"
        else
          let left := tmin + (tmax - tmin) * (1/4)
          let right := tmin + (tmax - tmin) * (3/4)
          let stable := stableFilter left right file_rows
          if stable.length < 5 then .err task_name "insufficient_stable_frames"
          else
            let spl_vals := stable.filterMap (fun r => r.spl_db)
            let spl_med := (medianQ spl_vals).getD 0
            .ok
              { task := task_name
                file := file_name
                f0_hz := medOf stable (fun r => r.f0_hz)
                f1_hz := medOf stable (fun r => r.f1_hz)
                f2_hz := medOf stable (fun r => r.f2_hz)
                f3_hz := medOf stable (fun r => r.f3_hz)
                b1_hz := medOf stable (fun r => r.b1_hz)
                b2_hz := medOf stable (fun r => r.b2_hz)
                b3_hz := medOf stable (fun r => r.b3_hz)
                spl_db := medOf stable (fun r => r.spl_db)
                spl_mad_db :=
                  if spl_vals.isEmpty then none
                  else medianQ (spl_vals.map (fun v => |v - spl_med|))
                n_frames := stable.length }
      | _, _ => .err task_name "invalid_time_range"

/-! ## Witness inputs and claim-side state predicates -/

/-- Frame used to witness C5: F2 - F1 = 100 < 150 with both confidences
0.9. -/
def ordFrameEx : AFrame :=
  { time := 0, f0 := 120, hnr := 12, f1 := some 800, f2 := some 900,
    conf1 := some (9/10), conf2 := some (9/10) }


/-- Four frames whose raw F1 values are 700, 700, 1400, 702 Hz. -/
def jumpExampleFrames : List RawFrame :=
  [{ time := 0, f1 := some 700 }, { time := 1/100, f1 := some 700 },
   { time := 1/50, f1 := some 1400 }, { time := 3/100, f1 := some 702 }]


/-- Five identical glide frames used to witness C4. -/
def vrpWitnessRows : List VRow :=
  List.replicate 5 { f0_hz := some 440, spl_db := some 60, voicing_prob := some 1 }


/-- One witness row for C9 at time `t`. -/
def anchorRow (t : ℚ) : ARow :=
  { task := "soft_a", file := "a", time_s := some t, f0_hz := some 200 }


/-- Six rows used to witness C9: times 0..5 s, so the middle 50% window is
[1.25, 3.75] and only the rows at 2 s and 3 s survive — fewer than 5. -/
def anchorRowsEx : List ARow :=
  [anchorRow 0, anchorRow 1, anchorRow 2, anchorRow 3, anchorRow 4, anchorRow 5]


/-- Invariant of the best-window scan after processing the frames before
index `i`: either no update has happened, in which case every already
scanned candidate window was too small, or the recorded best window is
well-formed with at least `MIN_FRAMES` frames, and some candidate window
with at least `MIN_FRAMES` frames exists. -/
def SelInvariant (frames : List AFrame) (i : ℕ) (st : SelState) : Prop :=
  (st.bestSum = -1 ∧ st.bestI = 0 ∧ st.bestJ = 0 ∧
    ∀ a, a < i → a < frames.length → windowCount frames a < MIN_FRAMES)
  ∨ (0 ≤ st.bestSum ∧ st.bestI < st.bestJ ∧ st.bestJ ≤ frames.length ∧
     MIN_FRAMES ≤ st.bestJ - st.bestI ∧
     ∃ a, a < frames.length ∧ MIN_FRAMES ≤ windowCount frames a)


/-- Two frames 10 ms apart used to witness C2: no window reaches 8 frames,
so the selector falls back to the full list. -/
def selWitnessFrames : List AFrame :=
  [{ time := 0, f0 := 100, hnr := 10, conf1 := some (1/2) },
   { time := 1/100, f0 := 100, hnr := 10, conf1 := some (1/2) }]


/-! ## Helper lemmas -/

lemma prominenceScore_nonneg (p : ℚ) : 0 ≤ prominenceScore p := by
  unfold prominenceScore
  split_ifs with h1 h2
  · norm_num
  · norm_num
  · have h3 : (3 : ℚ) ≤ p := not_lt.mp h2
    have : (0 : ℚ) ≤ p - 3 := by linarith
    positivity

lemma prominenceScore_le_one (p : ℚ) : prominenceScore p ≤ 1 := by
  unfold prominenceScore
  split_ifs with h1 h2
  · norm_num
  · norm_num
  · rw [div_le_one (by norm_num)]
    linarith [not_le.mp h1]

lemma bandwidthScore_nonneg (b : ℚ) : 0 ≤ bandwidthScore b := by
  unfold bandwidthScore
  split_ifs
  · norm_num
  · exact le_max_left 0 _

lemma bandwidthScore_le_one (b : ℚ) : bandwidthScore b ≤ 1 := by
  unfold bandwidthScore
  split_ifs
  · norm_num
  · have h1 : (0 : ℚ) ≤ |b - 340| / 500 := by positivity
    have h2 : 1 - |b - 340| / 500 ≤ 1 := by linarith
    exact max_le (by norm_num) h2

lemma promPair_fst_nonneg (f : ℚ) (env : Option (List ℚ × List ℚ)) :
    0 ≤ (promPair f env).1 := by
  unfold promPair
  match env with
  | none => norm_num
  | some (e, bins) => exact prominenceScore_nonneg _

lemma promPair_fst_le_one (f : ℚ) (env : Option (List ℚ × List ℚ)) :
    (promPair f env).1 ≤ 1 := by
  unfold promPair
  match env with
  | none => norm_num
  | some (e, bins) => exact prominenceScore_le_one _

lemma harmonicPenalty_cases (f f0 p : ℚ) :
    harmonicPenalty f f0 p = 0 ∨ harmonicPenalty f f0 p = 1/5 := by
  simp only [harmonicPenalty]
  split_ifs
  · exact Or.inr rfl
  · exact Or.inl rfl
  · exact Or.inl rfl

lemma harmonicPenalty_nonneg (f f0 p : ℚ) : 0 ≤ harmonicPenalty f f0 p := by
  rcases harmonicPenalty_cases f f0 p with h | h <;> norm_num [h]

/-- Python's `round` yields a nearest integer: no integer is strictly closer. -/
lemma pyRound_nearest (q : ℚ) (k : ℤ) :
    |q - (pyRound q : ℚ)| ≤ |q - (k : ℚ)| := by
  have hfl : ((⌊q⌋ : ℤ) : ℚ) ≤ q := Int.floor_le q
  have hfu : q < (⌊q⌋ : ℚ) + 1 := Int.lt_floor_add_one q
  have hdist : |q - (pyRound q : ℚ)| ≤ q - (⌊q⌋ : ℚ) ∧
      |q - (pyRound q : ℚ)| ≤ (⌊q⌋ : ℚ) + 1 - q := by
    simp only [pyRound]
    split_ifs with h1 h2 h3
    · rw [abs_of_nonneg (by linarith)]
      exact ⟨le_refl _, by linarith⟩
    · have habs : |q - ((⌊q⌋ + 1 : ℤ) : ℚ)| = (⌊q⌋ : ℚ) + 1 - q := by
        rw [abs_of_nonpos (by push_cast; linarith)]
        push_cast
        ring
      rw [habs]
      constructor
      · linarith
      · linarith
    · have heq : q - (⌊q⌋ : ℚ) = 1/2 := le_antisymm (not_lt.mp h2) (not_lt.mp h1)
      rw [abs_of_nonneg (by linarith)]
      exact ⟨le_refl _, by linarith⟩
    · have heq : q - (⌊q⌋ : ℚ) = 1/2 := le_antisymm (not_lt.mp h2) (not_lt.mp h1)
      have habs : |q - ((⌊q⌋ + 1 : ℤ) : ℚ)| = (⌊q⌋ : ℚ) + 1 - q := by
        rw [abs_of_nonpos (by push_cast; linarith)]
        push_cast
        ring
      rw [habs]
      constructor
      · linarith
      · linarith
  rcases le_or_lt k ⌊q⌋ with hk | hk
  · have hk' : (k : ℚ) ≤ (⌊q⌋ : ℚ) := by exact_mod_cast hk
    have habs : |q - (k : ℚ)| = q - (k : ℚ) := abs_of_nonneg (by linarith)
    rw [habs]
    linarith [hdist.1]
  · have hk' : (⌊q⌋ : ℚ) + 1 ≤ (k : ℚ) := by exact_mod_cast hk
    have habs : |q - (k : ℚ)| = (k : ℚ) - q := by
      rw [abs_of_nonpos (by linarith)]
      ring
    rw [habs]
    linarith [hdist.2]

/-! ## C7: exact condition for the harmonic-proximity penalty -/

/-- C7. For a candidate with positive f0 (and positive candidate frequency,
as any formant value is), the 0.2 harmonic penalty is subtracted exactly
when the candidate frequency lies within 3% relative distance of the
nearest integer multiple of f0 and the computed prominence is below 6 dB;
otherwise the penalty is 0 (the penalty takes no other value), and the
confidence is the weighted composite minus exactly this penalty, floored
at 0. -/
theorem harmonic_penalty_condition (freq bw f0 : ℚ)
    (env : Option (List ℚ × List ℚ)) (hf0 : 0 < f0) (hfreq : 0 < freq) :
    (harmonicPenalty freq f0 (promPair freq env).2 = 1/5 ↔
      ((∃ k : ℤ, |freq - (k : ℚ) * f0| / freq < 3/100) ∧ (promPair freq env).2 < 6))
    ∧ (harmonicPenalty freq f0 (promPair freq env).2 = 0 ∨
        harmonicPenalty freq f0 (promPair freq env).2 = 1/5)
    ∧ (_calculate_confidence freq bw f0 env).1
        = max 0 (3/5 * (promPair freq env).1 + 2/5 * bandwidthScore bw
            - harmonicPenalty freq f0 (promPair freq env).2) := by
  refine ⟨?_, harmonicPenalty_cases freq f0 _, rfl⟩
  have habsmul : ∀ c : ℚ, |freq - c * f0| = |freq / f0 - c| * f0 := by
    intro c
    have h1 : freq - c * f0 = (freq / f0 - c) * f0 := by
      field_simp
      ring
    rw [h1, abs_mul, abs_of_pos hf0]
  have hnear : ∀ k : ℤ,
      |freq - (pyRound (freq / f0) : ℚ) * f0| ≤ |freq - (k : ℚ) * f0| := by
    intro k
    rw [habsmul, habsmul]
    exact mul_le_mul_of_nonneg_right (pyRound_nearest (freq / f0) k) (le_of_lt hf0)
  simp only [harmonicPenalty, if_pos hf0]
  constructor
  · intro h
    by_cases hc : |freq - (pyRound (freq / f0) : ℚ) * f0| / freq < 3/100
        ∧ (promPair freq env).2 < 6
    · exact ⟨⟨pyRound (freq / f0), hc.1⟩, hc.2⟩
    · rw [if_neg hc] at h
      norm_num at h
  · rintro ⟨⟨k, hk⟩, hp⟩
    have hmono : |freq - (pyRound (freq / f0) : ℚ) * f0| / freq
        ≤ |freq - (k : ℚ) * f0| / freq :=
      (div_le_div_iff_of_pos_right hfreq).mpr (hnear k)
    rw [if_pos ⟨lt_of_le_of_lt hmono hk, hp⟩]

/-- Witness for C7 at freq = 400, f0 = 100, no envelope: 400 is exactly the
4th multiple of 100 and the default prominence 0 is below 6 dB, so the
penalty is 0.2. -/
theorem harmonic_penalty_condition_witness :
    (0 : ℚ) < 100 ∧ (0 : ℚ) < 400 ∧
    harmonicPenalty 400 100 ((promPair 400 none).2) = 1/5 :=
  ⟨by norm_num, by norm_num,
    (harmonic_penalty_condition 400 100 100 none (by norm_num) (by norm_num)).1.mpr
      ⟨⟨4, by norm_num⟩, by norm_num [promPair]⟩⟩

/-! ## C1: confidence equals the clamped weighted composite -/

/-- C1. For every formant candidate (frequency, bandwidth, f0, optional
envelope), the confidence returned by the scorer equals
`clamp(0.6 * prominence_score + 0.4 * bandwidth_score - harmonic_penalty, 0, 1)`,
and in particular always lies in the closed interval [0, 1].  (The source
computes `max(0.0, score)`; this coincides with the clamp because the
weighted composite never exceeds 1.) -/
theorem confidence_eq_clamp (freq bw f0 : ℚ) (env : Option (List ℚ × List ℚ)) :
    (_calculate_confidence freq bw f0 env).1
      = clamp (3/5 * (promPair freq env).1 + 2/5 * bandwidthScore bw
          - harmonicPenalty freq f0 (promPair freq env).2) 0 1
    ∧ 0 ≤ (_calculate_confidence freq bw f0 env).1
    ∧ (_calculate_confidence freq bw f0 env).1 ≤ 1 := by
  have hp0 := promPair_fst_nonneg freq env
  have hp1 := promPair_fst_le_one freq env
  have hb0 := bandwidthScore_nonneg bw
  have hb1 := bandwidthScore_le_one bw
  have hh0 := harmonicPenalty_nonneg freq f0 (promPair freq env).2
  have hscore : 3/5 * (promPair freq env).1 + 2/5 * bandwidthScore bw
      - harmonicPenalty freq f0 (promPair freq env).2 ≤ 1 := by linarith
  refine ⟨?_, le_max_left 0 _, ?_⟩
  · unfold _calculate_confidence clamp
    rw [min_eq_left hscore]
  · unfold _calculate_confidence
    exact max_le (by norm_num) hscore

/-! ## C6: shape of the bandwidth score (corrected) -/

/-- C6 counterexample.  The claim that `bandwidth_score` strictly decreases
as the bandwidth moves away from [80, 600] fails: 900 and 1000 are at
distances 300 and 400 from the band, yet both score 0. -/
theorem bandwidth_decay_counterexample :
    distToBand 900 < distToBand 1000 ∧
    ¬ bandwidthScore 1000 < bandwidthScore 900 ∧
    bandwidthScore 900 = 0 ∧ bandwidthScore 1000 = 0 := by
  refine ⟨by norm_num [distToBand], ?_, ?_, ?_⟩ <;>
    norm_num [bandwidthScore, distToBand, abs_of_nonneg]

lemma distToBand_nonneg (b : ℚ) : 0 ≤ distToBand b := by
  unfold distToBand
  split_ifs <;> linarith

lemma bandwidthScore_normal_form (b : ℚ) :
    bandwidthScore b =
      if distToBand b = 0 then 1 else max 0 ((240 - distToBand b) / 500) := by
  unfold bandwidthScore distToBand
  by_cases h1 : b < 80
  · have hband : ¬ (80 ≤ b ∧ b ≤ 600) := by
      rintro ⟨h, _⟩; linarith
    rw [if_neg hband, if_pos h1, if_neg (by linarith)]
    have habs : |b - 340| = 340 - b := by
      rw [abs_of_neg (by linarith)]; ring
    rw [habs]
    congr 1
    ring
  · by_cases h2 : 600 < b
    · have hband : ¬ (80 ≤ b ∧ b ≤ 600) := by
        rintro ⟨_, h⟩; linarith
      rw [if_neg hband, if_neg h1, if_pos h2, if_neg (by linarith)]
      have habs : |b - 340| = b - 340 := abs_of_nonneg (by linarith)
      rw [habs]
      congr 1
      ring
    · have hband : 80 ≤ b ∧ b ≤ 600 := ⟨by linarith, by linarith⟩
      rw [if_pos hband, if_neg h1, if_neg h2, if_pos rfl]

lemma bandwidthScore_eq_zero_iff (b : ℚ) :
    bandwidthScore b = 0 ↔ 240 ≤ distToBand b := by
  rw [bandwidthScore_normal_form]
  by_cases hz : distToBand b = 0
  · rw [if_pos hz, hz]
    norm_num
  · rw [if_neg hz]
    constructor
    · intro h
      have hx : (240 - distToBand b) / 500 ≤ 0 := max_eq_left_iff.mp h
      linarith
    · intro h
      exact max_eq_left (by linarith)

lemma bandwidthScore_strict_anti (b1 b2 : ℚ)
    (hlt : distToBand b1 < distToBand b2) (hle : distToBand b2 ≤ 240) :
    bandwidthScore b2 < bandwidthScore b1 := by
  rw [bandwidthScore_normal_form b1, bandwidthScore_normal_form b2]
  have h2pos : 0 < distToBand b2 := lt_of_le_of_lt (distToBand_nonneg b1) hlt
  rw [if_neg h2pos.ne']
  have hmax2 : max 0 ((240 - distToBand b2) / 500) = (240 - distToBand b2) / 500 :=
    max_eq_right (div_nonneg (by linarith) (by norm_num))
  rw [hmax2]
  by_cases h1z : distToBand b1 = 0
  · rw [if_pos h1z]
    rw [div_lt_one (by norm_num)]
    linarith
  · rw [if_neg h1z]
    have h1pos : 0 < distToBand b1 :=
      lt_of_le_of_ne (distToBand_nonneg b1) (Ne.symm h1z)
    have hmax1 : max 0 ((240 - distToBand b1) / 500) = (240 - distToBand b1) / 500 :=
      max_eq_right (div_nonneg (by linarith) (by norm_num))
    rw [hmax1]
    linarith

/-- C6 amended.  `bandwidth_score(80) = bandwidth_score(600) = 1`; the score
strictly decreases as the bandwidth moves away from [80, 600] while the
distance to the band stays within 240 Hz (where the score is still
positive); and the score is 0 exactly when the distance from the band is at
least 240 Hz, i.e. when `|b - 340| >= 500` — so in particular (as the
original claim stated) once `|b - 340| >= 840`. -/
theorem bandwidthScore_profile :
    bandwidthScore 80 = 1 ∧ bandwidthScore 600 = 1
    ∧ (∀ b1 b2 : ℚ, distToBand b1 < distToBand b2 → distToBand b2 ≤ 240 →
        bandwidthScore b2 < bandwidthScore b1)
    ∧ (∀ b : ℚ, bandwidthScore b = 0 ↔ 240 ≤ distToBand b)
    ∧ (∀ b : ℚ, 840 ≤ |b - 340| → bandwidthScore b = 0) := by
  refine ⟨by norm_num [bandwidthScore], by norm_num [bandwidthScore],
    bandwidthScore_strict_anti, bandwidthScore_eq_zero_iff, ?_⟩
  intro b h
  rw [bandwidthScore_eq_zero_iff]
  rcases le_abs.mp h with h' | h'
  · have hgt : 600 < b := by linarith
    unfold distToBand
    rw [if_neg (by linarith), if_pos hgt]
    linarith
  · have hlt : b < 80 := by linarith
    unfold distToBand
    rw [if_pos hlt]
    linarith

/-- Witness for the amended C6 theorem: 700 and 800 are at distances 100 and
200 from the band, both within 240, so the score strictly decreases from
700 to 800. -/
theorem bandwidthScore_profile_witness :
    bandwidthScore 800 < bandwidthScore 700 :=
  bandwidthScore_profile.2.2.1 700 800 (by norm_num [distToBand])
    (by norm_num [distToBand])

/-! ## C5: ordering/spacing violations scale both confidences by 0.2 -/

lemma orderPenaltyF1F2_applies (fr : AFrame) (v1 v2 : ℚ)
    (h1 : fr.f1 = some v1) (h2 : fr.f2 = some v2)
    (hviol : v2 ≤ v1 ∨ v2 - v1 < 150) :
    (orderPenaltyF1F2 fr).conf1 = some (fr.conf1.getD 0 * (1/5))
    ∧ (orderPenaltyF1F2 fr).conf2 = some (fr.conf2.getD 0 * (1/5)) := by
  have hcond : ¬ (v1 < v2 ∧ 150 ≤ v2 - v1) := by
    rintro ⟨ha, hb⟩
    rcases hviol with h | h <;> linarith
  simp only [orderPenaltyF1F2, h1, h2]
  rw [if_pos hcond]
  exact ⟨rfl, rfl⟩

lemma bandwidthCeilingPenalty_conf (g : AFrame) :
    ((bandwidthCeilingPenalty g).conf1 = g.conf1
      ∧ (bandwidthCeilingPenalty g).conf2 = g.conf2)
    ∨ ((bandwidthCeilingPenalty g).conf1 = some (g.conf1.getD 0 * (1/5))
      ∧ (bandwidthCeilingPenalty g).conf2 = some (g.conf2.getD 0 * (1/5))) := by
  unfold bandwidthCeilingPenalty
  split_ifs
  · exact Or.inr ⟨rfl, rfl⟩
  · exact Or.inl ⟨rfl, rfl⟩

lemma orderPenaltyF2F3_conf (g : AFrame) :
    (orderPenaltyF2F3 g).conf1 = g.conf1
    ∧ ((orderPenaltyF2F3 g).conf2 = g.conf2
      ∨ (orderPenaltyF2F3 g).conf2 = some (g.conf2.getD 0 * (1/5))) := by
  rcases hf2 : g.f2 with _ | v2 <;> rcases hf3 : g.f3 with _ | v3
  · simp [orderPenaltyF2F3, hf2, hf3]
  · simp [orderPenaltyF2F3, hf2, hf3]
  · simp [orderPenaltyF2F3, hf2, hf3]
  · simp only [orderPenaltyF2F3, hf2, hf3]
    split_ifs
    · exact ⟨rfl, Or.inl rfl⟩
    · exact ⟨rfl, Or.inr rfl⟩

/-- C5. For every frame holding both an accepted F1 and F2, when F1 >= F2 or
F2 - F1 < 150 Hz, the validated frame's conf1 and conf2 are each at most
20% of their pre-penalty values (the values are multiplied by 0.2 by the
ordering rule, possibly scaled further by the other penalty rules, and a
positive confidence stays positive — not zeroed). -/
theorem ordering_spacing_penalty (fr : AFrame) (v1 v2 : ℚ)
    (h1 : fr.f1 = some v1) (h2 : fr.f2 = some v2)
    (hviol : v2 ≤ v1 ∨ v2 - v1 < 150)
    (hc1 : 0 ≤ fr.conf1.getD 0) (hc2 : 0 ≤ fr.conf2.getD 0) :
    (applyPairConstraints fr).conf1.getD 0 ≤ 1/5 * fr.conf1.getD 0
    ∧ (applyPairConstraints fr).conf2.getD 0 ≤ 1/5 * fr.conf2.getD 0
    ∧ (0 < fr.conf1.getD 0 → 0 < (applyPairConstraints fr).conf1.getD 0)
    ∧ (0 < fr.conf2.getD 0 → 0 < (applyPairConstraints fr).conf2.getD 0) := by
  obtain ⟨e1, e2⟩ := orderPenaltyF1F2_applies fr v1 v2 h1 h2 hviol
  have hconf1 : ∃ m : ℚ, (applyPairConstraints fr).conf1.getD 0
      = fr.conf1.getD 0 * m ∧ 1/25 ≤ m ∧ m ≤ 1/5 := by
    unfold applyPairConstraints
    rw [(orderPenaltyF2F3_conf (bandwidthCeilingPenalty (orderPenaltyF1F2 fr))).1]
    rcases bandwidthCeilingPenalty_conf (orderPenaltyF1F2 fr) with ⟨fa, _⟩ | ⟨fa, _⟩
    · rw [fa, e1]
      exact ⟨1/5, by simp, by norm_num, by norm_num⟩
    · rw [fa, e1]
      refine ⟨1/25, ?_, by norm_num, by norm_num⟩
      simp only [Option.getD_some]
      ring
  have hconf2 : ∃ m : ℚ, (applyPairConstraints fr).conf2.getD 0
      = fr.conf2.getD 0 * m ∧ 1/125 ≤ m ∧ m ≤ 1/5 := by
    unfold applyPairConstraints
    rcases (orderPenaltyF2F3_conf (bandwidthCeilingPenalty (orderPenaltyF1F2 fr))).2
      with h3 | h3 <;>
      rcases bandwidthCeilingPenalty_conf (orderPenaltyF1F2 fr) with ⟨_, fb⟩ | ⟨_, fb⟩ <;>
      rw [h3]
    · rw [fb, e2]
      exact ⟨1/5, by simp, by norm_num, by norm_num⟩
    · rw [fb, e2]
      refine ⟨1/25, ?_, by norm_num, by norm_num⟩
      simp only [Option.getD_some]
      ring
    · rw [fb, e2]
      refine ⟨1/25, ?_, by norm_num, by norm_num⟩
      simp only [Option.getD_some]
      ring
    · rw [fb, e2]
      refine ⟨1/125, ?_, by norm_num, by norm_num⟩
      simp only [Option.getD_some]
      ring
  obtain ⟨m1, hm1, hm1lo, hm1hi⟩ := hconf1
  obtain ⟨m2, hm2, hm2lo, hm2hi⟩ := hconf2
  refine ⟨?_, ?_, ?_, ?_⟩
  · rw [hm1, mul_comm]
    exact mul_le_mul_of_nonneg_right hm1hi hc1
  · rw [hm2, mul_comm]
    exact mul_le_mul_of_nonneg_right hm2hi hc2
  · intro hpos
    rw [hm1]
    exact mul_pos hpos (lt_of_lt_of_le (by norm_num) hm1lo)
  · intro hpos
    rw [hm2]
    exact mul_pos hpos (lt_of_lt_of_le (by norm_num) hm2lo)

/-- Witness for C5 at the concrete frame `ordFrameEx`. -/
theorem ordering_spacing_penalty_witness :
    (applyPairConstraints ordFrameEx).conf1.getD 0 ≤ 1/5 * ordFrameEx.conf1.getD 0
    ∧ (applyPairConstraints ordFrameEx).conf2.getD 0 ≤ 1/5 * ordFrameEx.conf2.getD 0 :=
  ⟨(ordering_spacing_penalty ordFrameEx 800 900 rfl rfl (Or.inr (by norm_num))
      (by norm_num [ordFrameEx]) (by norm_num [ordFrameEx])).1,
   (ordering_spacing_penalty ordFrameEx 800 900 rfl rfl (Or.inr (by norm_num))
      (by norm_num [ordFrameEx]) (by norm_num [ordFrameEx])).2.1⟩

/-! ## C8: the QC gate only ever nulls formant and bandwidth fields -/

/-- C8. For every frame processed by the QC gate, the output row's f0, time,
voicing probability and intensity/SPL values are exactly the extracted
input values — no QC rule nulls them (the voicing-probability and high-f0
rules only append a flag); only the six formant/bandwidth fields are ever
nulled. -/
theorem qc_preserves_summary_fields (pmin phigh offset : ℚ)
    (st : QcState) (fr : RawFrame) :
    (qcStep pmin phigh offset st fr).1.f0_hz = fr.f0
    ∧ (qcStep pmin phigh offset st fr).1.time_s = fr.time
    ∧ (qcStep pmin phigh offset st fr).1.voicing_prob = fr.vprob
    ∧ (qcStep pmin phigh offset st fr).1.spl_db
        = fr.inten.map (fun x => x + offset) :=
  ⟨rfl, rfl, rfl, rfl⟩

/-! ## C3: temporal-jump rejection and baseline persistence -/

lemma qcStep_f1_hz (pmin phigh offset : ℚ) (st : QcState) (fr : RawFrame) :
    (qcStep pmin phigh offset st fr).1.f1_hz
      = (jumpCheck 300 "jump_f1" st.prevF1
          (rangeCheck 150 1200 "formant_out_of_range_f1" fr.f1).1).1 := rfl

lemma qcStep_f2_hz (pmin phigh offset : ℚ) (st : QcState) (fr : RawFrame) :
    (qcStep pmin phigh offset st fr).1.f2_hz
      = (jumpCheck 500 "jump_f2" st.prevF2
          (rangeCheck 500 3500 "formant_out_of_range_f2" fr.f2).1).1 := rfl

lemma qcStep_prevF1 (pmin phigh offset : ℚ) (st : QcState) (fr : RawFrame) :
    (qcStep pmin phigh offset st fr).2.prevF1
      = (match (jumpCheck 300 "jump_f1" st.prevF1
          (rangeCheck 150 1200 "formant_out_of_range_f1" fr.f1).1).1 with
        | some w => some w
        | none => st.prevF1) := rfl

lemma qcStep_prevF2 (pmin phigh offset : ℚ) (st : QcState) (fr : RawFrame) :
    (qcStep pmin phigh offset st fr).2.prevF2
      = (match (jumpCheck 500 "jump_f2" st.prevF2
          (rangeCheck 500 3500 "formant_out_of_range_f2" fr.f2).1).1 with
        | some w => some w
        | none => st.prevF2) := rfl

lemma qcStep_flags (pmin phigh offset : ℚ) (st : QcState) (fr : RawFrame) :
    (qcStep pmin phigh offset st fr).1.qc_flags
      = lowVoicingFlag pmin fr.vprob
        ++ (rangeCheck 150 1200 "formant_out_of_range_f1" fr.f1).2
        ++ (rangeCheck 500 3500 "formant_out_of_range_f2" fr.f2).2
        ++ (rangeCheck 1500 4500 "formant_out_of_range_f3" fr.f3).2
        ++ (rangeCheck 20 1200 "bandwidth_out_of_range_b1" fr.b1).2
        ++ (rangeCheck 20 1600 "bandwidth_out_of_range_b2" fr.b2).2
        ++ (rangeCheck 20 2000 "bandwidth_out_of_range_b3" fr.b3).2
        ++ highF0Flag phigh fr.f0
        ++ (jumpCheck 300 "jump_f1" st.prevF1
            (rangeCheck 150 1200 "formant_out_of_range_f1" fr.f1).1).2
        ++ (jumpCheck 500 "jump_f2" st.prevF2
            (rangeCheck 500 3500 "formant_out_of_range_f2" fr.f2).1).2 := rfl

lemma qcStep_jump_f1 (pmin phigh offset : ℚ) (st : QcState) (fr : RawFrame)
    (pv v : ℚ) (hprev : st.prevF1 = some pv) (hf : fr.f1 = some v)
    (hjump : 300 < |v - pv|) :
    (qcStep pmin phigh offset st fr).1.f1_hz = none
    ∧ (qcStep pmin phigh offset st fr).1.qc_flags ≠ []
    ∧ (qcStep pmin phigh offset st fr).2.prevF1 = some pv := by
  by_cases hrange : 150 ≤ v ∧ v ≤ 1200
  · have hr : rangeCheck 150 1200 "formant_out_of_range_f1" fr.f1 = (some v, []) := by
      simp only [rangeCheck, hf]
      rw [if_neg (not_not_intro hrange)]
    have hj : jumpCheck 300 "jump_f1" st.prevF1
        (rangeCheck 150 1200 "formant_out_of_range_f1" fr.f1).1
        = (none, ["jump_f1"]) := by
      simp only [hr, hprev, jumpCheck, hjump, if_true]
    refine ⟨?_, ?_, ?_⟩
    · rw [qcStep_f1_hz, hj]
    · rw [qcStep_flags, hj]
      simp
    · rw [qcStep_prevF1, hj]
      exact hprev
  · have hr : rangeCheck 150 1200 "formant_out_of_range_f1" fr.f1
        = (none, ["formant_out_of_range_f1"]) := by
      simp only [rangeCheck, hf]
      rw [if_pos hrange]
    have hj : jumpCheck 300 "jump_f1" st.prevF1
        (rangeCheck 150 1200 "formant_out_of_range_f1" fr.f1).1
        = (none, []) := by
      simp only [hr, hprev, jumpCheck]
    refine ⟨?_, ?_, ?_⟩
    · rw [qcStep_f1_hz, hj]
    · rw [qcStep_flags, hr]
      simp
    · rw [qcStep_prevF1, hj]
      exact hprev

lemma qcStep_jump_f2 (pmin phigh offset : ℚ) (st : QcState) (fr : RawFrame)
    (pv v : ℚ) (hprev : st.prevF2 = some pv) (hf : fr.f2 = some v)
    (hjump : 500 < |v - pv|) :
    (qcStep pmin phigh offset st fr).1.f2_hz = none
    ∧ (qcStep pmin phigh offset st fr).1.qc_flags ≠ []
    ∧ (qcStep pmin phigh offset st fr).2.prevF2 = some pv := by
  by_cases hrange : 500 ≤ v ∧ v ≤ 3500
  · have hr : rangeCheck 500 3500 "formant_out_of_range_f2" fr.f2 = (some v, []) := by
      simp only [rangeCheck, hf]
      rw [if_neg (not_not_intro hrange)]
    have hj : jumpCheck 500 "jump_f2" st.prevF2
        (rangeCheck 500 3500 "formant_out_of_range_f2" fr.f2).1
        = (none, ["jump_f2"]) := by
      simp only [hr, hprev, jumpCheck, hjump, if_true]
    refine ⟨?_, ?_, ?_⟩
    · rw [qcStep_f2_hz, hj]
    · rw [qcStep_flags, hj]
      simp
    · rw [qcStep_prevF2, hj]
      exact hprev
  · have hr : rangeCheck 500 3500 "formant_out_of_range_f2" fr.f2
        = (none, ["formant_out_of_range_f2"]) := by
      simp only [rangeCheck, hf]
      rw [if_pos hrange]
    have hj : jumpCheck 500 "jump_f2" st.prevF2
        (rangeCheck 500 3500 "formant_out_of_range_f2" fr.f2).1
        = (none, []) := by
      simp only [hr, hprev, jumpCheck]
    refine ⟨?_, ?_, ?_⟩
    · rw [qcStep_f2_hz, hj]
    · rw [qcStep_flags, hr]
      simp
    · rw [qcStep_prevF2, hj]
      exact hprev

/-- C3. A frame whose finite F1 differs from the previous accepted F1 by
more than 300 Hz (resp. F2 by more than 500 Hz) has that value flagged and
nulled, and the nulled value is never used as the comparison baseline: the
previous accepted value persists.  On the concrete F1 sequence
[700, 700, 1400, 702] the third frame's F1 is nulled (here by the
out-of-range rule, which fires before the jump rule since 1400 > 1200 Hz)
while the fourth frame's F1 survives, being compared against the persisted
baseline 700, not the nulled 1400. -/
theorem qc_jump_rejection :
    (∀ pmin phigh offset : ℚ, ∀ st : QcState, ∀ fr : RawFrame, ∀ pv v : ℚ,
      st.prevF1 = some pv → fr.f1 = some v → 300 < |v - pv| →
        (qcStep pmin phigh offset st fr).1.f1_hz = none
        ∧ (qcStep pmin phigh offset st fr).1.qc_flags ≠ []
        ∧ (qcStep pmin phigh offset st fr).2.prevF1 = some pv)
    ∧ (∀ pmin phigh offset : ℚ, ∀ st : QcState, ∀ fr : RawFrame, ∀ pv v : ℚ,
      st.prevF2 = some pv → fr.f2 = some v → 500 < |v - pv| →
        (qcStep pmin phigh offset st fr).1.f2_hz = none
        ∧ (qcStep pmin phigh offset st fr).1.qc_flags ≠ []
        ∧ (qcStep pmin phigh offset st fr).2.prevF2 = some pv)
    ∧ (qcRun (3/5) 200 0 (QcState.mk none none) jumpExampleFrames).map
        (fun r => r.f1_hz) = [some 700, some 700, none, some 702] := by
  refine ⟨qcStep_jump_f1, qcStep_jump_f2, ?_⟩
  norm_num [qcRun, qcStep, rangeCheck, jumpCheck, lowVoicingFlag, highF0Flag,
    jumpExampleFrames]

/-- Witness for C3: a single in-range jump (700 to 1100 Hz) is nulled and
flagged while the baseline 700 persists. -/
theorem qc_jump_rejection_witness :
    (qcStep (3/5) 200 0 (QcState.mk (some 700) none)
        { time := 0, f1 := some 1100 }).1.f1_hz = none
    ∧ (qcStep (3/5) 200 0 (QcState.mk (some 700) none)
        { time := 0, f1 := some 1100 }).2.prevF1 = some 700 :=
  ⟨(qc_jump_rejection.1 (3/5) 200 0 (QcState.mk (some 700) none)
      { time := 0, f1 := some 1100 } 700 1100 rfl rfl (by norm_num)).1,
   (qc_jump_rejection.1 (3/5) 200 0 (QcState.mk (some 700) none)
      { time := 0, f1 := some 1100 } 700 1100 rfl rfl (by norm_num)).2.2⟩

/-! ## C10: calibration offset computation -/

/-- C10. `_compute_calibration_offset` builds a new `Calibration` without
mutating its input (pure in this model; the mode and noise level of the
input are carried over unchanged): it fails (Python ValueError) exactly
when the mode is "absolute" and no noise SPL reference is given; in
absolute mode with a reference `v` the offset is `v - noise_intensity_db`
with spl_kind "absolute"; in relative mode the offset is
`-noise_intensity_db` with spl_kind "relative". -/
theorem calibration_offset_spec (noise : ℚ) (calib : Calibration) :
    (_compute_calibration_offset noise calib
        = Except.error "absolute calibration requires noise_spl_db"
      ↔ (calib.mode = "absolute" ∧ calib.noise_spl_db = none))
    ∧ (∀ c', _compute_calibration_offset noise calib = Except.ok c' →
        c'.mode = calib.mode ∧ c'.noise_spl_db = calib.noise_spl_db
        ∧ (calib.mode = "absolute" →
            ∃ v, calib.noise_spl_db = some v
              ∧ c'.calibration_offset_db = v - noise ∧ c'.spl_kind = "absolute")
        ∧ (calib.mode = "relative" →
            c'.calibration_offset_db = -noise ∧ c'.spl_kind = "relative")) := by
  by_cases hmode : calib.mode = "absolute"
  · rcases hn : calib.noise_spl_db with _ | v
    · constructor
      · simp [_compute_calibration_offset, hmode, hn]
      · intro c' hc'
        simp [_compute_calibration_offset, hmode, hn] at hc'
    · constructor
      · simp [_compute_calibration_offset, hmode, hn]
      · intro c' hc'
        simp only [_compute_calibration_offset, if_pos hmode, hn,
          Except.ok.injEq] at hc'
        subst hc'
        refine ⟨rfl, rfl, fun _ => ⟨v, rfl, rfl, rfl⟩, fun hrel => ?_⟩
        rw [hmode] at hrel
        exact absurd hrel (by decide)
  · constructor
    · constructor
      · intro h
        simp [_compute_calibration_offset, hmode] at h
      · rintro ⟨h, _⟩
        exact absurd h hmode
    · intro c' hc'
      simp only [_compute_calibration_offset, if_neg hmode, Except.ok.injEq] at hc'
      subst hc'
      exact ⟨rfl, rfl, fun h => absurd h hmode, fun _ => ⟨rfl, rfl⟩⟩

/-- Witness for C10: absolute mode with reference 60 dB SPL and measured
noise intensity 40 dB gives offset 20 and kind "absolute". -/
theorem calibration_offset_spec_witness :
    ∃ v : ℚ, (Calibration.mk "absolute" (some 60) 0 "relative").noise_spl_db = some v
      ∧ (Calibration.mk "absolute" (some 60) 20 "absolute").calibration_offset_db = v - 40
      ∧ (Calibration.mk "absolute" (some 60) 20 "absolute").spl_kind = "absolute" := by
  have hres : _compute_calibration_offset 40 (Calibration.mk "absolute" (some 60) 0 "relative")
      = Except.ok (Calibration.mk "absolute" (some 60) 20 "absolute") := by
    norm_num [_compute_calibration_offset]
  have h := (calibration_offset_spec 40 (Calibration.mk "absolute" (some 60) 0 "relative")).2
    (Calibration.mk "absolute" (some 60) 20 "absolute") hres
  exact h.2.2.1 rfl

/-! ## C4: every materialized VRP bin holds at least 5 samples -/

lemma vrpBins_count_ge (binIdx : ℚ → ℤ) (pairs : List (ℚ × ℚ)) (b : VrpBin)
    (hb : b ∈ vrpBins binIdx pairs) : 5 ≤ b.count := by
  simp only [vrpBins, List.mem_filterMap] at hb
  obtain ⟨n, _, hn⟩ := hb
  split_ifs at hn with g1 g2 g3 <;> simp at hn
  subst hn
  exact le_of_not_lt g3

/-- C4. Every `VrpBin` appearing in the output bin list of the VRP binner
has a sample count of at least 5: a semitone bin with fewer than 5 samples
(before finiteness filtering or after MAD filtering) is never
materialized.  The statement quantifies over every semitone index map
`binIdx`, covering in particular the transcendental
`round(69 + 12*log2(f0/440))` of the source. -/
theorem vrp_bin_min_count (binIdx : ℚ → ℤ) (rows : List VRow) (b : VrpBin)
    (hb : b ∈ (_compute_vrp binIdx rows).binsOf) : 5 ≤ b.count := by
  unfold _compute_vrp at hb
  by_cases h1 : rows.isEmpty
  · rw [if_pos h1] at hb
    exact absurd hb (by simp [VrpResult.binsOf])
  · rw [if_neg h1] at hb
    by_cases h2 : (vrpValidPairs rows).isEmpty
    · rw [if_pos h2] at hb
      exact absurd hb (by simp [VrpResult.binsOf])
    · rw [if_neg h2] at hb
      exact vrpBins_count_ge binIdx (vrpValidPairs rows) b hb

set_option maxHeartbeats 2000000 in
/-- Witness for C4: on five voiced frames at 440 Hz / 60 dB the binner
materializes exactly the bin with count 5, which satisfies the floor. -/
theorem vrp_bin_min_count_witness :
    VrpBin.mk 0 60 60 60 5 ∈ (_compute_vrp (fun _ => 0) vrpWitnessRows).binsOf
    ∧ 5 ≤ (VrpBin.mk 0 60 60 60 5).count := by
  have hpairs : vrpValidPairs vrpWitnessRows
      = [(440, 60), (440, 60), (440, 60), (440, 60), (440, 60)] := by
    norm_num [vrpValidPairs, vrpWitnessRows, List.replicate, List.filterMap_cons]
  have hp5 : percentileQ [(60:ℚ), 60, 60, 60, 60] 5 = some 60 := by
    norm_num [percentileQ, sortQ, List.insertionSort, List.orderedInsert,
      List.getD_cons_zero, List.getD_cons_succ]
  have hp95 : percentileQ [(60:ℚ), 60, 60, 60, 60] 95 = some 60 := by
    norm_num [percentileQ, sortQ, List.insertionSort, List.orderedInsert,
      show Int.toNat 3 = 3 from rfl, List.getD_cons_zero, List.getD_cons_succ]
  have hmad : _mad_filtered [(60:ℚ), 60, 60, 60, 60] = [60, 60, 60, 60, 60] := by
    norm_num [_mad_filtered, medianQ, sortQ, List.insertionSort, List.orderedInsert,
      List.getD_cons_zero, List.getD_cons_succ]
  have hbins : vrpBins (fun _ => 0) (vrpValidPairs vrpWitnessRows)
      = [VrpBin.mk 0 60 60 60 5] := by
    rw [hpairs]
    simp only [vrpBins, List.map_cons, List.map_nil, List.foldl]
    norm_num [List.range_succ, List.filterMap_cons, List.filter_cons, hmad, hp5, hp95]
  have hmem : VrpBin.mk 0 60 60 60 5 ∈ (_compute_vrp (fun _ => 0) vrpWitnessRows).binsOf := by
    have hres : (_compute_vrp (fun _ => 0) vrpWitnessRows).binsOf
        = vrpBins (fun _ => 0) (vrpValidPairs vrpWitnessRows) := by
      unfold _compute_vrp
      rw [if_neg (by norm_num [vrpWitnessRows, List.replicate]),
        if_neg (by rw [hpairs]; norm_num)]
      rfl
    rw [hres, hbins]
    exact List.mem_singleton.mpr rfl
  exact ⟨hmem, vrp_bin_min_count (fun _ => 0) vrpWitnessRows (VrpBin.mk 0 60 60 60 5) hmem⟩

/-! ## C9: anchor extraction — stable window, voicing filter, error contract -/

/-- C9. With the default (first-file) selection policy, on a nonempty task
row set whose chosen file has a finite, nondegenerate time span, the anchor
extractor restricts the chosen file's rows to the middle 50% of the time
span and drops rows with a finite voicing probability below 0.60 (the
`stable` list); it returns the error "insufficient_stable_frames" — a
result carrying no metric values — exactly when fewer than 5 rows survive,
and otherwise returns the per-metric median over the surviving rows
together with their count. -/
theorem anchor_extraction_spec
    (rows : List ARow) (task : String) (s0 : ARow) (rest : List ARow)
    (tmin tmax : ℚ) (stable : List ARow)
    (hsel : rows.filter (fun r => r.task = task) = s0 :: rest)
    (htmin : nanMin (((s0 :: rest).filter (fun r => r.file = s0.file)).map
        (fun r => r.time_s)) = some tmin)
    (htmax : nanMax (((s0 :: rest).filter (fun r => r.file = s0.file)).map
        (fun r => r.time_s)) = some tmax)
    (hlt : tmin < tmax)
    (hstable : stable = stableFilter (tmin + (tmax - tmin) * (1/4))
        (tmin + (tmax - tmin) * (3/4)) ((s0 :: rest).filter (fun r => r.file = s0.file))) :
    (_extract_anchor rows task "first" = .err task "insufficient_stable_frames"
        ↔ stable.length < 5)
    ∧ (∀ a, _extract_anchor rows task "first" = .ok a →
        a.task = task ∧ a.file = s0.file
        ∧ a.f0_hz = medOf stable (fun r => r.f0_hz)
        ∧ a.f1_hz = medOf stable (fun r => r.f1_hz)
        ∧ a.f2_hz = medOf stable (fun r => r.f2_hz)
        ∧ a.f3_hz = medOf stable (fun r => r.f3_hz)
        ∧ a.b1_hz = medOf stable (fun r => r.b1_hz)
        ∧ a.b2_hz = medOf stable (fun r => r.b2_hz)
        ∧ a.b3_hz = medOf stable (fun r => r.b3_hz)
        ∧ a.spl_db = medOf stable (fun r => r.spl_db)
        ∧ a.n_frames = stable.length) := by
  have hfe : (((s0 :: rest).filter (fun r => r.file = s0.file)).isEmpty = true) → False := by
    have hmem : s0 ∈ (s0 :: rest).filter (fun r => r.file = s0.file) :=
      List.mem_filter.mpr ⟨List.mem_cons_self _ _, by simp⟩
    intro hemp
    cases hl : (s0 :: rest).filter (fun r => r.file = s0.file) with
    | nil =>
      rw [hl] at hmem
      exact absurd hmem (List.not_mem_nil _)
    | cons a l =>
      rw [hl] at hemp
      simp at hemp
  simp only [_extract_anchor, hsel]
  rw [if_neg (by decide : ¬("first" : String) = "max_voiced")]
  rw [if_neg hfe]
  simp only [htmin, htmax]
  rw [if_neg (not_le.mpr hlt)]
  rw [← hstable]
  by_cases hlen : stable.length < 5
  · rw [if_pos hlen]
    constructor
    · simp [hlen]
    · intro a h
      exact absurd h (by simp)
  · rw [if_neg hlen]
    constructor
    · simp [hlen]
    · intro a h
      rw [AnchorResult.ok.injEq] at h
      subst h
      exact ⟨rfl, rfl, rfl, rfl, rfl, rfl, rfl, rfl, rfl, rfl, rfl⟩

/-- Witness for C9: on `anchorRowsEx` only 2 frames survive the stable
window, so the extractor reports exactly the insufficiency error. -/
theorem anchor_extraction_spec_witness :
    _extract_anchor anchorRowsEx "soft_a" "first"
      = AnchorResult.err "soft_a" "insufficient_stable_frames" := by
  have hsel : anchorRowsEx.filter (fun r => r.task = "soft_a")
      = anchorRow 0 :: [anchorRow 1, anchorRow 2, anchorRow 3, anchorRow 4, anchorRow 5] := by
    norm_num [anchorRowsEx, anchorRow, List.filter_cons]
  have hfiles : ((anchorRow 0 :: [anchorRow 1, anchorRow 2, anchorRow 3, anchorRow 4,
      anchorRow 5]).filter (fun r => r.file = (anchorRow 0).file))
      = [anchorRow 0, anchorRow 1, anchorRow 2, anchorRow 3, anchorRow 4, anchorRow 5] := by
    norm_num [anchorRow, List.filter_cons]
  have htmin : nanMin (((anchorRow 0 :: [anchorRow 1, anchorRow 2, anchorRow 3, anchorRow 4,
      anchorRow 5]).filter (fun r => r.file = (anchorRow 0).file)).map (fun r => r.time_s))
      = some 0 := by
    rw [hfiles]
    norm_num [nanMin, anchorRow, min_def]
  have htmax : nanMax (((anchorRow 0 :: [anchorRow 1, anchorRow 2, anchorRow 3, anchorRow 4,
      anchorRow 5]).filter (fun r => r.file = (anchorRow 0).file)).map (fun r => r.time_s))
      = some 5 := by
    rw [hfiles]
    norm_num [nanMax, anchorRow, max_def]
  have hstable : [anchorRow 2, anchorRow 3]
      = stableFilter ((0 : ℚ) + (5 - 0) * (1/4)) ((0 : ℚ) + (5 - 0) * (3/4))
        ((anchorRow 0 :: [anchorRow 1, anchorRow 2, anchorRow 3, anchorRow 4,
          anchorRow 5]).filter (fun r => r.file = (anchorRow 0).file)) := by
    rw [hfiles]
    norm_num [stableFilter, anchorRow, List.filter_cons]
  exact (anchor_extraction_spec anchorRowsEx "soft_a" (anchorRow 0)
    [anchorRow 1, anchorRow 2, anchorRow 3, anchorRow 4, anchorRow 5]
    0 5 [anchorRow 2, anchorRow 3] hsel htmin htmax (by norm_num) hstable).1.mpr
    (by norm_num)

/-! ## C2: window selector fallback and minimum frame count

Facts about `cutAt` (the number of leading frames within `W` of `t0`) and
`advanceJ` (the source's inner `while`), leading to the loop invariant of
the two-pointer scan. -/

lemma timeAt_cons_succ (f : AFrame) (l : List AFrame) (k : ℕ) :
    timeAt (f :: l) (k + 1) = timeAt l k := rfl

lemma cutAt_le_length (l : List AFrame) (t0 : ℚ) : cutAt l t0 ≤ l.length := by
  induction l with
  | nil => exact Nat.le_refl 0
  | cons f rest ih =>
    unfold cutAt
    split_ifs
    · exact Nat.succ_le_succ ih
    · exact Nat.zero_le _

lemma cutAt_lt (l : List AFrame) (t0 : ℚ) (k : ℕ) (hk : k < cutAt l t0) :
    timeAt l k - t0 ≤ W := by
  induction l generalizing k with
  | nil => exact absurd hk (by simp [cutAt])
  | cons f rest ih =>
    rw [cutAt] at hk
    split_ifs at hk with h
    · cases k with
      | zero => exact h
      | succ k => exact (timeAt_cons_succ f rest k) ▸ ih k (Nat.lt_of_succ_lt_succ hk)
    · exact absurd hk (Nat.not_lt_zero k)

lemma cutAt_stop (l : List AFrame) (t0 : ℚ) (h : cutAt l t0 < l.length) :
    ¬ (timeAt l (cutAt l t0) - t0 ≤ W) := by
  induction l with
  | nil => exact absurd h (by simp [cutAt])
  | cons f rest ih =>
    rw [cutAt] at h ⊢
    split_ifs at h ⊢ with hc
    · rw [timeAt_cons_succ]
      exact ih (Nat.lt_of_succ_lt_succ h)
    · exact hc

lemma cutAt_mono (l : List AFrame) (t0 t1 : ℚ) (h : t0 ≤ t1) :
    cutAt l t0 ≤ cutAt l t1 := by
  induction l with
  | nil => exact Nat.le_refl 0
  | cons f rest ih =>
    unfold cutAt
    split_ifs with h0 h1
    · exact Nat.succ_le_succ ih
    · exact absurd (by linarith : f.time - t1 ≤ W) h1
    · exact Nat.zero_le _
    · exact Nat.le_refl 0

lemma cutAt_split (l : List AFrame) (t0 : ℚ) :
    ∀ i, i ≤ l.length → (∀ k, k < i → timeAt l k - t0 ≤ W) →
      cutAt l t0 = i + cutAt (l.drop i) t0 := by
  induction l with
  | nil =>
    intro i hi _
    have : i = 0 := Nat.le_zero.mp hi
    subst this
    simp
  | cons f rest ih =>
    intro i hi hall
    cases i with
    | zero => simp
    | succ i =>
      have h0 : f.time - t0 ≤ W := hall 0 (Nat.succ_pos i)
      rw [cutAt, if_pos h0, List.drop_succ_cons,
        ih i (Nat.le_of_succ_le_succ hi)
          (fun k hk => (timeAt_cons_succ f rest k) ▸ hall (k + 1) (Nat.succ_lt_succ hk))]
      omega

lemma advanceJ_eq_cutAt (frames : List AFrame) (t0 : ℚ) :
    ∀ fuel j, frames.length - j ≤ fuel → j ≤ cutAt frames t0 →
      advanceJ frames t0 j = cutAt frames t0 := by
  have hle := cutAt_le_length frames t0
  intro fuel
  induction fuel with
  | zero =>
    intro j hfuel hj
    rw [advanceJ, dif_neg (by omega : ¬ (j < frames.length ∧ timeAt frames j - t0 ≤ W))]
    omega
  | succ n ih =>
    intro j hfuel hj
    rw [advanceJ]
    by_cases hcond : j < frames.length ∧ timeAt frames j - t0 ≤ W
    · rw [dif_pos hcond]
      have hjlt : j < cutAt frames t0 := by
        rcases Nat.eq_or_lt_of_le hj with h | h
        · exact absurd (h ▸ hcond.2) (cutAt_stop frames t0 (h ▸ hcond.1))
        · exact h
      exact ih (j + 1) (by omega) hjlt
    · rw [dif_neg hcond]
      rcases Nat.eq_or_lt_of_le hj with h | h
      · exact h
      · exact absurd ⟨lt_of_lt_of_le h hle, cutAt_lt frames t0 j h⟩ hcond

lemma cutAt_eq_windowCount (frames : List AFrame) (i : ℕ)
    (hi : i < frames.length)
    (hsorted : ∀ b, b < frames.length → ∀ a, a ≤ b →
      timeAt frames a ≤ timeAt frames b) :
    cutAt frames (timeAt frames i) = i + windowCount frames i := by
  unfold windowCount
  exact cutAt_split frames (timeAt frames i) i (le_of_lt hi)
    (fun k hk => by
      have := hsorted i hi k (le_of_lt hk)
      have hW : (0 : ℚ) ≤ W := by norm_num [W]
      linarith)

lemma not_isclose_neg_one (s : ℚ) (hs : 0 ≤ s) : ¬ isclose s (-1) := by
  unfold isclose
  intro h
  have h1 : |s - (-1)| = s + 1 := by
    rw [abs_of_nonneg (by linarith)]
    ring
  have h2 : |(-1 : ℚ)| = 1 := by norm_num
  rw [h1, abs_of_nonneg hs, h2] at h
  rcases le_total s 1 with hle | hle
  · rw [max_eq_right hle] at h
    linarith
  · rw [max_eq_left hle] at h
    linarith

lemma selInvariant_final (frames : List AFrame) (i : ℕ) (st : SelState)
    (hle : frames.length ≤ i) (hinv : SelInvariant frames i st) :
    SelInvariant frames frames.length st := by
  rcases hinv with ⟨h1, h2, h3, h4⟩ | hr
  · exact Or.inl ⟨h1, h2, h3, fun a _ hal => h4 a (by omega) hal⟩
  · exact Or.inr hr

lemma selLoop_invariant (frames : List AFrame)
    (hsorted : ∀ b, b < frames.length → ∀ a, a ≤ b →
      timeAt frames a ≤ timeAt frames b)
    (hconf : ∀ f ∈ frames, 0 ≤ f.conf1.getD 0 ∧ 0 ≤ f.conf2.getD 0) :
    ∀ fuel i st, frames.length - i ≤ fuel →
      (i < frames.length → st.j ≤ cutAt frames (timeAt frames i)) →
      SelInvariant frames i st →
      SelInvariant frames frames.length (selLoop frames i st) := by
  intro fuel
  induction fuel with
  | zero =>
    intro i st hfuel hj hinv
    have hi : ¬ i < frames.length := by omega
    rw [selLoop, dif_neg hi]
    exact selInvariant_final frames i st (by omega) hinv
  | succ n ih =>
    intro i st hfuel hj hinv
    by_cases hi : i < frames.length
    case neg =>
      rw [selLoop, dif_neg hi]
      exact selInvariant_final frames i st (by omega) hinv
    case pos =>
    rw [selLoop, dif_pos hi]
    dsimp only
    have hcut : cutAt frames (timeAt frames i) = i + windowCount frames i :=
      cutAt_eq_windowCount frames i hi hsorted
    have hjeq : advanceJ frames (timeAt frames i) st.j = i + windowCount frames i := by
      rw [advanceJ_eq_cutAt frames (timeAt frames i) frames.length st.j (by omega) (hj hi)]
      exact hcut
    set j' := advanceJ frames (timeAt frames i) st.j with hjadv
    set s := (((frames.drop i).take (j' - i)).map frameScore).sum with hsdef
    have hs0 : 0 ≤ s := by
      rw [hsdef]
      apply List.sum_nonneg
      intro x hx
      rw [List.mem_map] at hx
      obtain ⟨f, hf, rfl⟩ := hx
      have hf' : f ∈ frames := List.drop_subset i frames (List.take_subset _ _ hf)
      have hc := hconf f hf'
      unfold frameScore
      linarith [hc.1, hc.2]
    have hjnext : ∀ st' : SelState, st'.j = j' →
        (i + 1 < frames.length → st'.j ≤ cutAt frames (timeAt frames (i + 1))) := by
      intro st' hst' h'
      rw [hst', hjadv, advanceJ_eq_cutAt frames (timeAt frames i) frames.length st.j
        (by omega) (hj hi)]
      exact cutAt_mono frames _ _ (hsorted (i + 1) h' i (by omega))
    by_cases hupd : (st.bestSum < s ∧ (MIN_FRAMES : ℤ) ≤ (j' : ℤ) - (i : ℤ)) ∨
        (isclose s st.bestSum ∧ (st.bestJ : ℤ) - (st.bestI : ℤ) < (j' : ℤ) - (i : ℤ))
    · rw [if_pos hupd]
      apply ih (i + 1) (SelState.mk s i j' j') (by omega) (hjnext _ rfl)
      have h8 : (MIN_FRAMES : ℤ) ≤ (j' : ℤ) - (i : ℤ) := by
        rcases hupd with ⟨_, h8⟩ | ⟨hcl, hgt⟩
        · exact h8
        · rcases hinv with ⟨hb, _, _, _⟩ | ⟨_, hij, _, hmin, _⟩
          · rw [hb] at hcl
            exact absurd hcl (not_isclose_neg_one s hs0)
          · omega
      have hM : MIN_FRAMES = 8 := rfl
      refine Or.inr ⟨hs0, ?_, ?_, ?_, ⟨i, hi, ?_⟩⟩
      · show i < j'
        omega
      · show j' ≤ frames.length
        rw [hjadv, advanceJ_eq_cutAt frames (timeAt frames i) frames.length st.j
          (by omega) (hj hi)]
        exact cutAt_le_length frames _
      · show MIN_FRAMES ≤ j' - i
        omega
      · show MIN_FRAMES ≤ windowCount frames i
        omega
    · rw [if_neg hupd]
      apply ih (i + 1) (SelState.mk st.bestSum st.bestI st.bestJ j') (by omega) (hjnext _ rfl)
      rcases hinv with ⟨h1, h2, h3, h4⟩ | hr
      · refine Or.inl ⟨h1, h2, h3, fun a ha hal => ?_⟩
        rcases Nat.lt_or_ge a i with hai | hai
        · exact h4 a hai hal
        · have haeq : a = i := by omega
          subst haeq
          by_contra h8'
          exact hupd (Or.inl ⟨h1 ▸ lt_of_lt_of_le (by norm_num) hs0, by omega⟩)
      · exact Or.inr hr

/-- C2. For every nonempty time-ordered frame list with nonnegative
confidences: when no candidate window (the maximal run of frames within
`W = 250 ms` of an anchor frame) holds at least `MIN_FRAMES = 8` frames,
the selector uses the full frame list; when some candidate window
qualifies, the chosen best window holds at least `MIN_FRAMES` frames; and
the result is never empty. -/
theorem window_selector_fallback (frames : List AFrame)
    (hne : frames ≠ [])
    (hsorted : ∀ b, b < frames.length → ∀ a, a ≤ b →
      timeAt frames a ≤ timeAt frames b)
    (hconf : ∀ f ∈ frames, 0 ≤ f.conf1.getD 0 ∧ 0 ≤ f.conf2.getD 0) :
    ((∀ a, a < frames.length → windowCount frames a < MIN_FRAMES) →
        selectBestWindow frames = frames)
    ∧ ((∃ a, a < frames.length ∧ MIN_FRAMES ≤ windowCount frames a) →
        MIN_FRAMES ≤ (selectBestWindow frames).length)
    ∧ selectBestWindow frames ≠ [] := by
  have hfin := selLoop_invariant frames hsorted hconf frames.length 0
    (SelState.mk (-1) 0 0 0) (by omega) (fun _ => Nat.zero_le _)
    (Or.inl ⟨rfl, rfl, rfl, fun a ha _ => absurd ha (Nat.not_lt_zero a)⟩)
  simp only [selectBestWindow]
  refine ⟨?_, ?_, ?_⟩
  · intro hall
    rcases hfin with ⟨_, h2, h3, _⟩ | ⟨_, _, _, _, a, ha, hwc⟩
    · rw [h2, h3]
      simp
    · exact absurd hwc (not_le.mpr (hall a ha))
  · rintro ⟨a, ha, hwc⟩
    rcases hfin with ⟨_, _, _, h4⟩ | ⟨_, hij, hjle, hmin, _⟩
    · exact absurd hwc (not_le.mpr (h4 a ha ha))
    · rw [if_pos hij]
      rw [List.length_take, List.length_drop]
      omega
  · rcases hfin with ⟨_, h2, h3, _⟩ | ⟨_, hij, hjle, hmin, _⟩
    · rw [h2, h3]
      simp [hne]
    · rw [if_pos hij]
      apply List.ne_nil_of_length_pos
      rw [List.length_take, List.length_drop]
      omega

/-- Witness for C2: on the two-frame list every candidate window is smaller
than `MIN_FRAMES`, and the selector returns the full list. -/
theorem window_selector_fallback_witness :
    selectBestWindow selWitnessFrames = selWitnessFrames := by
  have hsorted : ∀ b, b < selWitnessFrames.length → ∀ a, a ≤ b →
      timeAt selWitnessFrames a ≤ timeAt selWitnessFrames b := by
    intro b hb a ha
    simp only [selWitnessFrames, List.length_cons, List.length_nil] at hb
    interval_cases b <;> interval_cases a <;>
      norm_num [timeAt, selWitnessFrames, List.getD_cons_zero, List.getD_cons_succ]
  have hconf : ∀ f ∈ selWitnessFrames, 0 ≤ f.conf1.getD 0 ∧ 0 ≤ f.conf2.getD 0 := by
    intro f hf
    simp only [selWitnessFrames, List.mem_cons, List.not_mem_nil, or_false] at hf
    rcases hf with rfl | rfl <;> norm_num
  have hall : ∀ a, a < selWitnessFrames.length →
      windowCount selWitnessFrames a < MIN_FRAMES := by
    intro a ha
    simp only [selWitnessFrames, List.length_cons, List.length_nil] at ha
    interval_cases a <;>
      norm_num [windowCount, cutAt, timeAt, W, MIN_FRAMES, selWitnessFrames,
        List.getD_cons_zero, List.getD_cons_succ]
  exact (window_selector_fallback selWitnessFrames (by simp [selWitnessFrames])
    hsorted hconf).1 hall

end VfsTracker
